import Mathlib

/-!
Verification of the platform-adaptation layer of the freescout-gpt-assistant
browser extension.  The JavaScript sources (HTML sanitizer, platform detector,
platform manager, platform adapters) are shallowly embedded as executable Lean
definitions; browser primitives that the code calls (the `innerHTML` parser and
serializer of a detached DOM container, DOM event dispatch) are modelled by
small executable functions faithful to the browser behaviour on the fragments
exercised here (well-nested tags, double-quoted attributes, entity-free text).
-/

namespace FreescoutGPT

/-! ### Basic character and list utilities (JS string primitives) -/

/-- Space characters for the purposes of `\s` and of HTML attribute parsing. -/
def isSpaceChar (c : Char) : Bool :=
  c = ' ' || c = '\t' || c = '\n' || c = '\r'

/-- Word characters, the `\w` class of JS regexes. -/
def isWordChar (c : Char) : Bool :=
  ('a' ≤ c && c ≤ 'z') || ('A' ≤ c && c ≤ 'Z') || ('0' ≤ c && c ≤ '9') || c = '_'

/-- Lower-case ASCII letters, the `[a-z]` class. -/
def isLowerAlpha (c : Char) : Bool :=
  'a' ≤ c && c ≤ 'z'

/-- Case-sensitive test that `needle` is a leading part of `hay`. -/
def listStartsWith : List Char → List Char → Bool
  | [], _ => true
  | _ :: _, [] => false
  | a :: as, b :: bs => a = b && listStartsWith as bs

/-- Case-insensitive (ASCII `toLower`) test that `needle` leads `hay`. -/
def listStartsWithCI : List Char → List Char → Bool
  | [], _ => true
  | _ :: _, [] => false
  | a :: as, b :: bs => a.toLower = b.toLower && listStartsWithCI as bs

/-- Case-sensitive substring test, the model of JS `String.prototype.includes`. -/
def listHasSub : List Char → List Char → Bool
  | n, [] => n.isEmpty
  | n, c :: cs => listStartsWith n (c :: cs) || listHasSub n cs

/-- JS `url.includes(sub)` on Lean strings. -/
def strIncludes (s sub : String) : Bool :=
  listHasSub sub.data s.data

/-- JS `String.prototype.trim` on the ASCII whitespace the modelled inputs
use. -/
def trimChars (s : List Char) : List Char :=
  (((s.dropWhile isSpaceChar).reverse).dropWhile isSpaceChar).reverse

/-- JS `String.prototype.toLowerCase` (ASCII). -/
def toLowerChars (s : List Char) : List Char :=
  s.map Char.toLower

/-- JS `String.prototype.startsWith` on Lean strings. -/
def strStartsWith (s pre : String) : Bool :=
  listStartsWith pre.data s.data

/-- Global case-sensitive replacement of `t₀ :: trest` by `repl`, the model of
JS `String.replace(/literal/g, repl)`; fuelled like the other scanners. -/
def replaceSubF (t₀ : Char) (trest repl : List Char) : Nat → List Char → List Char
  | 0, s => s
  | _ + 1, [] => []
  | fuel + 1, c :: cs =>
    if listStartsWith (t₀ :: trest) (c :: cs) then
      repl ++ replaceSubF t₀ trest repl fuel (cs.drop trest.length)
    else
      c :: replaceSubF t₀ trest repl fuel cs

/-- Global case-sensitive replacement with full fuel. -/
def replaceSub (t₀ : Char) (trest repl s : List Char) : List Char :=
  replaceSubF t₀ trest repl (s.length + 1) s

/-- Location of the first occurrence of `needle`: the part before it and the
part after it.  `none` when `needle` does not occur. -/
def breakOnSub (needle : List Char) : List Char → Option (List Char × List Char)
  | [] => if needle.isEmpty then some ([], []) else none
  | c :: cs =>
    if listStartsWith needle (c :: cs) then some ([], (c :: cs).drop needle.length)
    else
      match breakOnSub needle cs with
      | some (b, a) => some (c :: b, a)
      | none => none

theorem breakOnSub_length_lt {n₀ : Char} {nr : List Char} {s b a : List Char}
    (h : breakOnSub (n₀ :: nr) s = some (b, a)) : a.length < s.length := by
  induction s generalizing b a with
  | nil => simp [breakOnSub] at h
  | cons c cs ih =>
    simp only [breakOnSub] at h
    by_cases hp : listStartsWith (n₀ :: nr) (c :: cs) = true
    · simp only [hp, if_pos] at h
      cases h
      simp only [List.length_drop, List.length_cons]
      omega
    · simp only [hp] at h
      cases hb : breakOnSub (n₀ :: nr) cs with
      | none => rw [hb] at h; cases h
      | some p =>
        rw [hb] at h
        cases p with
        | mk b' a' =>
          simp at h
          have := ih hb
          cases h with
          | intro h1 h2 =>
            subst h2
            simp [List.length_cons]
            omega

/-! ### HTMLSanitizer: dangerous-pattern removal (`removeDangerousPatterns`)

The `DANGEROUS_PATTERNS` regexes of `HTMLSanitizer` are global, case-insensitive
replaces by the empty string; each is modelled by a dedicated scanner with JS
`String.replace(/…/gi, '')` semantics: leftmost match wins, scanning resumes
right after each match. -/

/-- Fuelled worker of `removeSubCI`; each step consumes at least one input
character, so any fuel of at least the input length is exact. -/
def removeSubCIF (t₀ : Char) (trest : List Char) : Nat → List Char → List Char
  | 0, s => s
  | _ + 1, [] => []
  | fuel + 1, c :: cs =>
    if listStartsWithCI (t₀ :: trest) (c :: cs) then
      removeSubCIF t₀ trest fuel (cs.drop trest.length)
    else
      c :: removeSubCIF t₀ trest fuel cs

/-- Global case-insensitive removal of the literal `t₀ :: trest` from a string,
the model of `cleaned.replace(/literal/gi, '')`. -/
def removeSubCI (t₀ : Char) (trest : List Char) (s : List Char) : List Char :=
  removeSubCIF t₀ trest (s.length + 1) s

/-- Rest of the input after the first case-insensitive `</script>`, when one
exists.  Models the closing half of the script-tag regex of the sanitizer. -/
def findCloseScript : List Char → Option (List Char)
  | [] => none
  | c :: cs =>
    if listStartsWithCI "</script>".data (c :: cs) then some ((c :: cs).drop 9)
    else findCloseScript cs

theorem findCloseScript_length_le {s r : List Char} (h : findCloseScript s = some r) :
    r.length ≤ s.length := by
  induction s with
  | nil => simp [findCloseScript] at h
  | cons c cs ih =>
    simp only [findCloseScript] at h
    by_cases hp : listStartsWithCI ("</script>".data) (c :: cs) = true
    · simp only [hp, if_pos] at h
      cases h
      simp only [List.length_drop, List.length_cons]
      omega
    · simp only [hp] at h
      have := ih h
      simp only [List.length_cons]
      omega

/-- Removal of whole `<script …>…</script>` elements, the model of the first
`DANGEROUS_PATTERNS` regex `<script\b[^<]*(?:(?!<\/script>)<[^<]*)*<\/script>`:
a case-insensitive `<script` followed by a non-word boundary character, up to
and including the first case-insensitive `</script>`. -/
def stripScriptTagsF : Nat → List Char → List Char
  | 0, s => s
  | _ + 1, [] => []
  | fuel + 1, c :: cs =>
    if listStartsWithCI "<script".data (c :: cs)
        && (match (c :: cs).drop 7 with
            | [] => true
            | d :: _ => !isWordChar d) then
      match findCloseScript ((c :: cs).drop 7) with
      | some rest => stripScriptTagsF fuel rest
      | none => c :: stripScriptTagsF fuel cs
    else
      c :: stripScriptTagsF fuel cs

/-- Removal of whole `<script …>…</script>` elements with full fuel. -/
def stripScriptTags (s : List Char) : List Char :=
  stripScriptTagsF (s.length + 1) s

/-- Removal of inline event handlers, the model of `/on\w+\s*=/gi`: `on`, one
or more word characters, optional spaces, `=`. -/
def stripOnHandlersF : Nat → List Char → List Char
  | 0, s => s
  | _ + 1, [] => []
  | _ + 1, [c] => [c]
  | fuel + 1, c₁ :: c₂ :: rest =>
    if c₁.toLower = 'o' && c₂.toLower = 'n' && !(rest.takeWhile isWordChar).isEmpty then
      match (rest.dropWhile isWordChar).dropWhile isSpaceChar with
      | '=' :: r₃ => stripOnHandlersF fuel r₃
      | _ => c₁ :: stripOnHandlersF fuel (c₂ :: rest)
    else
      c₁ :: stripOnHandlersF fuel (c₂ :: rest)

/-- Removal of inline event handlers with full fuel. -/
def stripOnHandlers (s : List Char) : List Char :=
  stripOnHandlersF (s.length + 1) s

/-- The `removeDangerousPatterns` static method: the seven regex removals in
source order. -/
def removeDangerousPatterns (s : List Char) : List Char :=
  let s := stripScriptTags s
  let s := stripOnHandlers s
  let s := removeSubCI 'j' "avascript:".data s
  let s := removeSubCI 'd' "ata:text/html".data s
  let s := removeSubCI '<' "iframe".data s
  let s := removeSubCI '<' "embed".data s
  let s := removeSubCI '<' "object".data s
  s

/-- The `finalValidation` static method: one more script-tag sweep and one more
event-handler sweep. -/
def finalValidation (s : List Char) : List Char :=
  stripOnHandlers (stripScriptTags s)

/-! ### HTMLSanitizer: URL checking, escaping and markdown conversion -/

/-- The `ALLOWED_SCHEMES` constant. -/
def ALLOWED_SCHEMES : List String := ["http", "https", "mailto"]

/-- Test for the `^[a-z]+:` regex used by `sanitizeURL` on the lowercased URL. -/
def matchesSchemeShape (s : List Char) : Bool :=
  let run := s.takeWhile isLowerAlpha
  !run.isEmpty && (s.drop run.length).head? = some ':'

/-- The `sanitizeURL` static method: reject `javascript:`/`data:`/`vbscript:`,
accept scheme-less (relative) URLs, otherwise require an allowed scheme.
Returns the trimmed URL (`null` becomes `none`). -/
def sanitizeURL (url : String) (allowedSchemes : List String) : Option String :=
  if url = "" then none
  else
    let trimmed := String.mk (trimChars url.data)
    let lower := String.mk (toLowerChars trimmed.data)
    if strStartsWith lower "javascript:" || strStartsWith lower "data:"
        || strStartsWith lower "vbscript:" then none
    else
      let hasAllowedScheme := allowedSchemes.any fun scheme =>
        strStartsWith lower (scheme ++ ":")
      if !matchesSchemeShape lower.data then some trimmed
      else if hasAllowedScheme then some trimmed
      else none

/-- Character-level map of the `escapeHtml` static method (a single regex pass
with a character map, so replacements are never rescanned). -/
def escapeHtmlChar (c : Char) : List Char :=
  if c = '&' then "&amp;".data
  else if c = '<' then "&lt;".data
  else if c = '>' then "&gt;".data
  else if c = Char.ofNat 34 then "&quot;".data
  else if c = Char.ofNat 39 then "&#x27;".data
  else if c = '/' then "&#x2F;".data
  else [c]

/-- The `escapeHtml` static method. -/
def escapeHtml (s : List Char) : List Char :=
  (s.map escapeHtmlChar).flatten

/-- Replacement text produced by the markdown-link callback of
`convertMarkdownToHTML`: an anchor when the URL passes `sanitizeURL`, the bare
link text otherwise. -/
def mdLinkReplacement (txt url : List Char) : List Char :=
  match sanitizeURL (String.mk url) ALLOWED_SCHEMES with
  | some u =>
    "<a href=".data ++ [Char.ofNat 34] ++ escapeHtml u.data ++ [Char.ofNat 34]
      ++ " target=".data ++ [Char.ofNat 34] ++ "_blank".data ++ [Char.ofNat 34]
      ++ " rel=".data ++ [Char.ofNat 34] ++ "noopener noreferrer".data ++ [Char.ofNat 34]
      ++ ">".data ++ escapeHtml txt ++ "</a>".data
  | none => txt

/-- The markdown-link pass of `convertMarkdownToHTML`, modelling
`/\[([^\]]+)\]\(([^)]+)\)/g`: `[text](url)` with non-empty bracket-free text
and non-empty parenthesis-free URL. -/
def mdLinksF : Nat → List Char → List Char
  | 0, s => s
  | _ + 1, [] => []
  | fuel + 1, c :: cs =>
    if c = '[' then
      let txt := cs.takeWhile (· ≠ ']')
      if !txt.isEmpty then
        match cs.drop txt.length with
        | ']' :: '(' :: rest₂ =>
          let url := rest₂.takeWhile (· ≠ ')')
          if !url.isEmpty then
            match rest₂.drop url.length with
            | ')' :: rest₃ => mdLinkReplacement txt url ++ mdLinksF fuel rest₃
            | _ => c :: mdLinksF fuel cs
          else c :: mdLinksF fuel cs
        | _ => c :: mdLinksF fuel cs
      else c :: mdLinksF fuel cs
    else c :: mdLinksF fuel cs

/-- The markdown-link pass with full fuel. -/
def mdLinks (s : List Char) : List Char :=
  mdLinksF (s.length + 1) s

/-- Generic delimiter-wrapping pass shared by the bold, italic and code
replaces of `convertMarkdownToHTML`: an opening delimiter `o₁ :: oRest`, a
non-empty run free of `forb`, a closing delimiter `close`, replaced by
`pre ++ run ++ post`. -/
def mdWrapF (o₁ : Char) (oRest : List Char) (close : List Char) (forb : Char)
    (pre post : List Char) : Nat → List Char → List Char
  | 0, s => s
  | _ + 1, [] => []
  | fuel + 1, c :: cs =>
    if listStartsWith (o₁ :: oRest) (c :: cs) then
      let afterOpen := cs.drop oRest.length
      let run := afterOpen.takeWhile (· ≠ forb)
      let afterRun := afterOpen.drop run.length
      if !run.isEmpty && listStartsWith close afterRun then
        pre ++ run ++ post
          ++ mdWrapF o₁ oRest close forb pre post fuel (afterRun.drop close.length)
      else
        c :: mdWrapF o₁ oRest close forb pre post fuel cs
    else
      c :: mdWrapF o₁ oRest close forb pre post fuel cs

/-- Delimiter wrapping with full fuel. -/
def mdWrap (o₁ : Char) (oRest : List Char) (close : List Char) (forb : Char)
    (pre post : List Char) (s : List Char) : List Char :=
  mdWrapF o₁ oRest close forb pre post (s.length + 1) s

/-- The `convertMarkdownToHTML` static method: links, then `**bold**`, then
`*italic*`, then backtick code, each a global regex replace. -/
def convertMarkdownToHTML (s : List Char) : List Char :=
  let s := mdLinks s
  let s := mdWrap '*' ['*'] ['*', '*'] '*' "<strong>".data "</strong>".data s
  let s := mdWrap '*' [] ['*'] '*' "<em>".data "</em>".data s
  let s := mdWrap (Char.ofNat 96) [] [(Char.ofNat 96)] (Char.ofNat 96) "<code>".data "</code>".data s
  s

/-! ### HTMLSanitizer: line-break conversion -/

/-- Newline-to-break replacement applied outside `<pre>` blocks. -/
def nlToBr (s : List Char) : List Char :=
  (s.map fun c => if c = '\n' then "<br>".data else [c]).flatten

/-- First `<pre>…</pre>` block of the input: the part before it, the block
itself and the part after it, mirroring the capture-splitting regex
`/(<pre>[\s\S]*?<\/pre>)/` of `convertLineBreaks`. -/
def splitFirstPre (s : List Char) : Option (List Char × List Char × List Char) :=
  match breakOnSub "<pre>".data s with
  | none => none
  | some (before, afterOpen) =>
    match breakOnSub "</pre>".data afterOpen with
    | none => none
    | some (inner, after) =>
      some (before, "<pre>".data ++ inner ++ "</pre>".data, after)

theorem splitFirstPre_after_length_lt {s b blk a : List Char}
    (h : splitFirstPre s = some (b, blk, a)) : a.length < s.length := by
  unfold splitFirstPre at h
  cases h1 : breakOnSub ("<pre>".data) s with
  | none => rw [h1] at h; cases h
  | some p =>
    rw [h1] at h
    cases p with
    | mk before afterOpen =>
      cases h2 : breakOnSub ("</pre>".data) afterOpen with
      | none => simp only [h2] at h; cases h
      | some q =>
        simp only [h2] at h
        cases q with
        | mk inner after =>
          simp only [Option.some.injEq, Prod.mk.injEq] at h
          have ha : a = after := by tauto
          subst ha
          have l1 := breakOnSub_length_lt h1
          have l2 := breakOnSub_length_lt h2
          omega

/-- Fuelled worker of `convertLineBreaksL`. -/
def convertLineBreaksLF : Nat → List Char → List Char
  | 0, s => s
  | fuel + 1, s =>
    match splitFirstPre s with
    | none => nlToBr s
    | some (before, blk, after) => nlToBr before ++ blk ++ convertLineBreaksLF fuel after

/-- The `convertLineBreaks` static method: split the text around `<pre>` blocks
(kept verbatim) and convert `\n` to `<br>` everywhere else. -/
def convertLineBreaksL (s : List Char) : List Char :=
  convertLineBreaksLF (s.length + 1) s

/-! ### DOM model

The sanitizer's `parseAndSanitize` assigns the input to `temp.innerHTML`,
rewrites the resulting element tree and reads `temp.innerHTML` back.  The
browser's fragment parser and serializer are modelled below for the fragments
this development evaluates: well-nested lowercase tags, double-quoted
attributes, entity-free text. -/

/-- A DOM node: a text node or an element with a (lowercase) tag name, an
ordered attribute list and children. -/
inductive HNode where
  | text : List Char → HNode
  | elem : String → List (String × String) → List HNode → HNode

/-- Characters allowed in tag and attribute names by this model. -/
def isTagChar (c : Char) : Bool :=
  c.isAlpha || c.isDigit || c = '-'

/-- ASCII-lowercase a name, as the DOM does for HTML tag and attribute names. -/
def lowerStr (s : List Char) : String :=
  String.mk (s.map Char.toLower)

/-- Void elements, serialized without a closing tag. -/
def isVoidTag (t : String) : Bool :=
  t = "br" || t = "hr" || t = "img" || t = "input" || t = "meta" || t = "link"
    || t = "area" || t = "base" || t = "col" || t = "embed" || t = "source"
    || t = "track" || t = "wbr" || t = "param"

/-- Attribute-list scanner of the tag parser: consumes up to and including the
closing `>`, returning the parsed attributes and the rest of the input. -/
def parseAttrsF : Nat → List Char → List (String × String) × List Char
  | 0, s => ([], s)
  | fuel + 1, s =>
    let s₁ := s.dropWhile isSpaceChar
    match s₁ with
    | [] => ([], [])
    | '>' :: r => ([], r)
    | '/' :: r => parseAttrsF fuel r
    | c :: cs =>
      let nm := (c :: cs).takeWhile fun ch =>
        !isSpaceChar ch && ch ≠ '=' && ch ≠ '>' && ch ≠ '/'
      let s₂ := (c :: cs).drop nm.length
      if nm.isEmpty then
        parseAttrsF fuel cs
      else
        match s₂ with
        | '=' :: q :: r =>
          if q = Char.ofNat 34 then
            let v := r.takeWhile (· ≠ Char.ofNat 34)
            let r₂ := (r.drop v.length).drop 1
            let (as, rest) := parseAttrsF fuel r₂
            ((lowerStr nm, String.mk v) :: as, rest)
          else
            let v := (q :: r).takeWhile fun ch => !isSpaceChar ch && ch ≠ '>'
            let r₂ := (q :: r).drop v.length
            let (as, rest) := parseAttrsF fuel r₂
            ((lowerStr nm, String.mk v) :: as, rest)
        | _ =>
          let (as, rest) := parseAttrsF fuel s₂
          ((lowerStr nm, "") :: as, rest)

/-- Consumption of a closing tag `</name …>` when it matches `name`; a
mismatched or absent closing tag is left in place. -/
def consumeCloseTag (name : String) (s : List Char) : List Char :=
  match s with
  | '<' :: '/' :: r =>
    let nm := r.takeWhile isTagChar
    if lowerStr nm = name then
      match (r.drop nm.length).dropWhile isSpaceChar with
      | '>' :: r₂ => r₂
      | _ => s
    else s
  | _ => s

/-- Fragment parser: parses sibling nodes until a closing tag or the end of
input, returning the nodes and the unconsumed rest. -/
def parseNodesF : Nat → List Char → List HNode × List Char
  | 0, s => ([], s)
  | _ + 1, [] => ([], [])
  | fuel + 1, c :: cs =>
    if c = '<' then
      match cs with
      | '/' :: _ => ([], c :: cs)
      | d :: ds =>
        if d.isAlpha then
          let nm := (d :: ds).takeWhile isTagChar
          let s₁ := (d :: ds).drop nm.length
          let (attrs, s₂) := parseAttrsF (fuel + 1) s₁
          let name := lowerStr nm
          if isVoidTag name then
            let (ns, rest) := parseNodesF fuel s₂
            (HNode.elem name attrs [] :: ns, rest)
          else
            let (children, s₃) := parseNodesF fuel s₂
            let s₄ := consumeCloseTag name s₃
            let (ns, rest) := parseNodesF fuel s₄
            (HNode.elem name attrs children :: ns, rest)
        else
          let (ns, rest) := parseNodesF fuel cs
          (HNode.text [c] :: ns, rest)
      | [] => ([HNode.text [c]], [])
    else
      let (ns, rest) := parseNodesF fuel cs
      (HNode.text [c] :: ns, rest)

/-- Skip of a stray closing tag during top-level error recovery. -/
def dropThroughGt (s : List Char) : List Char :=
  (s.dropWhile (· ≠ '>')).drop 1

/-- Top-level fragment parse with browser-style recovery: stray closing tags
are dropped. -/
def parseTop : Nat → List Char → List HNode
  | 0, _ => []
  | fuel + 1, s =>
    match parseNodesF (s.length + 1) s with
    | (ns, []) => ns
    | (ns, rest) => ns ++ parseTop fuel (dropThroughGt rest)

/-- Input-stream preprocessing of the HTML parser: CRLF and lone CR are
normalized to LF, and U+0000 character tokens are ignored by the in-body tree
construction, so NUL is dropped from text. -/
def preprocessHTMLInput : List Char → List Char
  | [] => []
  | [c] => if c = '\r' then ['\n'] else if c = Char.ofNat 0 then [] else [c]
  | c :: d :: rest =>
    if c = '\r' then
      if d = '\n' then '\n' :: preprocessHTMLInput rest
      else '\n' :: preprocessHTMLInput (d :: rest)
    else if c = Char.ofNat 0 then preprocessHTMLInput (d :: rest)
    else c :: preprocessHTMLInput (d :: rest)

/-- Full parse of an `innerHTML` assignment, input preprocessing included. -/
def parseHTML (s : List Char) : List HNode :=
  parseTop ((preprocessHTMLInput s).length + 1) (preprocessHTMLInput s)

/-- Text-node escaping of the `innerHTML` serializer: `&`, `<`, `>` and
U+00A0 (as `&nbsp;`). -/
def escTextChar (c : Char) : List Char :=
  if c = '&' then "&amp;".data
  else if c = '<' then "&lt;".data
  else if c = '>' then "&gt;".data
  else if c = Char.ofNat 160 then "&nbsp;".data
  else [c]

/-- Attribute-value escaping of the `innerHTML` serializer: `&`, `"` and
U+00A0 (as `&nbsp;`). -/
def escAttrChar (c : Char) : List Char :=
  if c = '&' then "&amp;".data
  else if c = Char.ofNat 34 then "&quot;".data
  else if c = Char.ofNat 160 then "&nbsp;".data
  else [c]

/-- Serialization of one attribute as ` name="value"`. -/
def serializeAttr (a : String × String) : List Char :=
  ' ' :: a.1.data ++ '=' :: Char.ofNat 34 :: (a.2.data.map escAttrChar).flatten
    ++ [Char.ofNat 34]

mutual

/-- Serialization of one node by the `innerHTML` getter. -/
def serializeNode : HNode → List Char
  | HNode.text t => (t.map escTextChar).flatten
  | HNode.elem name attrs children =>
    '<' :: name.data ++ (attrs.map serializeAttr).flatten ++ ['>']
      ++ (if isVoidTag name then [] else
            serializeNodes children ++ '<' :: '/' :: name.data ++ ['>'])

/-- Serialization of a node list, the model of reading `innerHTML` back. -/
def serializeNodes : List HNode → List Char
  | [] => []
  | n :: rest => serializeNode n ++ serializeNodes rest

end

mutual

/-- The `textContent` of a node: concatenated descendant text. -/
def textContentN : HNode → List Char
  | HNode.text t => t
  | HNode.elem _ _ children => textContentList children

/-- The `textContent` of a node list. -/
def textContentList : List HNode → List Char
  | [] => []
  | n :: rest => textContentN n ++ textContentList rest

end

/-! ### HTMLSanitizer: whitelist rewriting (`sanitizeNode` / `sanitizeAttributes`) -/

/-- The `ALLOWED_TAGS` constant. -/
def ALLOWED_TAGS : List String :=
  ["p", "br", "div", "span",
   "strong", "b", "em", "i", "u",
   "a", "ul", "ol", "li",
   "blockquote", "code", "pre",
   "h1", "h2", "h3", "h4", "h5", "h6"]

/-- The `ALLOWED_ATTRIBUTES` constant as a lookup by tag name. -/
def allowedAttributesFor (tag : String) : List String :=
  if tag = "a" then ["href", "target", "rel", "title"]
  else if tag = "div" then ["class", "id"]
  else if tag = "span" then ["class"]
  else if tag = "code" then ["class"]
  else if tag = "pre" then ["class"]
  else []

/-- Attribute-list primitive: `element.hasAttribute(name)`. -/
def hasAttr (attrs : List (String × String)) (name : String) : Bool :=
  attrs.any fun a => a.1 = name

/-- Attribute-list primitive: `element.removeAttribute(name)`. -/
def removeAttr (attrs : List (String × String)) (name : String) : List (String × String) :=
  attrs.filter fun a => a.1 ≠ name

/-- Attribute-list primitive: `element.setAttribute(name, v)` updates in place
or appends, matching DOM attribute ordering. -/
def setAttr (attrs : List (String × String)) (name v : String) : List (String × String) :=
  if hasAttr attrs name then
    attrs.map fun a => if a.1 = name then (name, v) else a
  else
    attrs ++ [(name, v)]

/-- One iteration of the `attributes.forEach` loop of `sanitizeAttributes`,
applied to the current attribute list for the snapshot entry `a`. -/
def sanitizeAttrStep (tag : String) (attrs : List (String × String))
    (a : String × String) : List (String × String) :=
  let allowedAttrs := allowedAttributesFor tag
  let attrName := lowerStr a.1.data
  let attrValue := a.2
  if !allowedAttrs.contains attrName then
    removeAttr attrs attrName
  else
    let attrs :=
      if attrName = "href" then
        match sanitizeURL attrValue ALLOWED_SCHEMES with
        | some sanitizedHref =>
          let attrs := setAttr attrs "href" sanitizedHref
          if strStartsWith sanitizedHref "http" then
            let attrs := setAttr attrs "rel" "noopener noreferrer"
            if !hasAttr attrs "target" then setAttr attrs "target" "_blank" else attrs
          else attrs
        | none => removeAttr attrs "href"
      else attrs
    if strIncludes attrValue "javascript:" || strIncludes attrValue "data:" then
      removeAttr attrs attrName
    else attrs

/-- The `sanitizeAttributes` static method: the snapshot of the element's
attributes is folded over the element's evolving attribute list. -/
def sanitizeAttributes (tag : String) (attrs : List (String × String)) :
    List (String × String) :=
  attrs.foldl (sanitizeAttrStep tag) attrs

mutual

/-- The `sanitizeNode` recursion on one child: a disallowed element collapses
to its text content, an allowed one keeps sanitized attributes and recursively
sanitized children; text nodes are untouched (the source iterates
`node.children`, elements only). -/
def sanitizeOneNode (n : HNode) : HNode :=
  match n with
  | HNode.text t => HNode.text t
  | HNode.elem tag attrs children =>
    if ALLOWED_TAGS.contains tag then
      HNode.elem tag (sanitizeAttributes tag attrs) (sanitizeNodeList children)
    else
      HNode.text (textContentList children)

/-- The `sanitizeNode` static method over a container's child list. -/
def sanitizeNodeList : List HNode → List HNode
  | [] => []
  | n :: rest => sanitizeOneNode n :: sanitizeNodeList rest

end

/-- The `parseAndSanitize` static method: assign `temp.innerHTML`, run
`sanitizeNode`, read `temp.innerHTML` back. -/
def parseAndSanitizeL (s : List Char) : List Char :=
  serializeNodes (sanitizeNodeList (parseHTML s))

/-! ### HTMLSanitizer: the `sanitize` pipeline -/

/-- Caller-supplied options of `sanitize`; `none` models an absent key. -/
structure SanitizeOptions where
  convertMarkdown : Option Bool := none
  convertLineBreaks : Option Bool := none
  stripDangerous : Option Bool := none

/-- The default `{}` options object. -/
def defaultOptions : SanitizeOptions := {}

/-- The `sanitize` static method: dangerous-pattern strip, whitelist rebuild,
markdown conversion, line-break conversion, final validation, in source
order.  A falsy input returns the empty string. -/
def sanitize (html : String) (options : SanitizeOptions) : String :=
  if html = "" then ""
  else
    let stripDangerous := options.stripDangerous ≠ some false
    let convertLineBreaksFlag := options.convertLineBreaks ≠ some false
    let s := html.data
    let s := if stripDangerous then removeDangerousPatterns s else s
    let s := parseAndSanitizeL s
    let s := if options.convertMarkdown ≠ some false then convertMarkdownToHTML s else s
    let s := if convertLineBreaksFlag then convertLineBreaksL s else s
    let s := finalValidation s
    String.mk s

/-- Characters inert for the whole sanitizer pipeline: none of the HTML or
markdown machinery (tag parsing, input preprocessing, entity escaping,
dangerous-pattern literals, markdown delimiters, event-handler `=`, scheme
`:`, line breaks) can fire on a string built only from them.  Besides the
nine syntax-active characters this excludes carriage return (normalized to
LF by the parser's input preprocessing, then converted to `<br>`), U+0000
(dropped by the parser) and U+00A0 (serialized as `&nbsp;`). -/
def inertChar (c : Char) : Bool :=
  !(c = '<' || c = '>' || c = '&' || c = '*' || c = (Char.ofNat 96) || c = '['
      || c = '\n' || c = '=' || c = ':'
      || c = '\r' || c = Char.ofNat 0 || c = Char.ofNat 160)

/-! ### PlatformDetector (platformDetection.js)

The detector's static state is two fields (`_cachedPlatform`,
`_cacheTimestamp`); the page environment visible to the four strategies is a
URL, the set of matching DOM selectors, the platform globals and the meta
tags. -/

/-- The two supported platforms.  `Option Platform` models
`'freescout' | 'helpscout' | null`. -/
inductive Platform where
  | freescout
  | helpscout
deriving DecidableEq, Repr, Fintype

/-- The `PLATFORM_PATTERNS.freescout.patterns` list. -/
def freescoutPatterns : List String := ["/conversation/*", "/mailbox/*"]

/-- The `PLATFORM_PATTERNS.freescout.urlIncludes` list. -/
def freescoutUrlIncludes : List String := ["freescout", "conversation"]

/-- The `PLATFORM_PATTERNS.freescout.urlExcludes` list. -/
def freescoutUrlExcludes : List String := ["helpscout.net", "secure.helpscout.net"]

/-- The `PLATFORM_PATTERNS.helpscout.patterns` list. -/
def helpscoutPatterns : List String := ["/conversations/*", "/inboxes/*/views", "/conversation/*/"]

/-- The `PLATFORM_PATTERNS.helpscout.urlIncludes` list. -/
def helpscoutUrlIncludes : List String := ["helpscout.net", "secure.helpscout.net", "helpscout.com"]

/-- Sequential-segment matching of a wildcard pattern compiled by
`pattern.replace(/\*/g, '.*')` and tested unanchored: each literal segment must
occur in order. -/
def matchSegs : List (List Char) → List Char → Bool
  | [], _ => true
  | seg :: rest, s =>
    match breakOnSub seg s with
    | some (_, after) => matchSegs rest after
    | none => false

/-- Fuelled worker of `splitOnStar`. -/
def splitOnStarF : Nat → List Char → List (List Char)
  | 0, s => [s]
  | fuel + 1, s =>
    match breakOnSub ['*'] s with
    | none => [s]
    | some (before, after) => before :: splitOnStarF fuel after

/-- Split of a pattern at its `*` wildcards into literal segments, the model
of `pattern.replace(/\*/g, '.*')` read as a segment sequence. -/
def splitOnStar (s : List Char) : List (List Char) :=
  splitOnStarF (s.length + 1) s

/-- One wildcard pattern test of `matchesPattern`. -/
def wildcardTest (pattern : String) (url : String) : Bool :=
  matchSegs (splitOnStar pattern.data) url.data

/-- The `matchesPattern` static method: an include-substring hit or a wildcard
pattern hit. -/
def matchesPattern (url : String) (urlIncludes : List String) (patterns : List String) : Bool :=
  urlIncludes.any (fun pat => strIncludes url pat)
    || patterns.any (fun pat => wildcardTest pat url)

/-- The `detectByURL` static method, with its exclude-list guards. -/
def detectByURL (url : String) : Option Platform :=
  if matchesPattern url helpscoutUrlIncludes helpscoutPatterns then
    if !(freescoutUrlExcludes.any fun excl => strIncludes url excl) then none
    else some Platform.helpscout
  else if matchesPattern url freescoutUrlIncludes freescoutPatterns then
    if !(helpscoutUrlIncludes.any fun incl => strIncludes url incl) then
      some Platform.freescout
    else none
  else none

/-- A page's DOM as the set of CSS selectors that match at least one element
(`doc.querySelector(sel) !== null`). -/
structure Doc where
  present : List String

/-- The model of `doc.querySelector(sel) !== null`. -/
def selPresent (doc : Doc) (sel : String) : Bool :=
  doc.present.contains sel

/-- The `DOM_MARKERS.freescout.selectors` list. -/
def freescoutSelectors : List String :=
  [".thread-item", ".note-editable", "#wordpress-freescout",
   ".thread-type-customer", ".thread-type-message"]

/-- The `DOM_MARKERS.freescout.dataAttributes` list. -/
def freescoutDataAttributes : List String := ["data-conversation-id"]

/-- The `DOM_MARKERS.freescout.uniqueMarkers` list. -/
def freescoutUniqueMarkers : List String := ["#conv-layout-main", ".conv-actions"]

/-- The `DOM_MARKERS.helpscout.selectors` list. -/
def helpscoutSelectors : List String :=
  ["#mailbox", ".c-conversation", "section#wrap", ".c-thread-item", ".c-conversation-thread"]

/-- The `DOM_MARKERS.helpscout.dataAttributes` list. -/
def helpscoutDataAttributes : List String := ["data-cy", "data-bypass"]

/-- The `DOM_MARKERS.helpscout.uniqueMarkers` list. -/
def helpscoutUniqueMarkers : List String := ["#AccountDropdown", ".c-nav-secondary"]

/-- The `hasUniqueMarkers` static method. -/
def hasUniqueMarkers (doc : Doc) (markers : List String) : Bool :=
  markers.any fun sel => selPresent doc sel

/-- The `calculateDOMScore` static method as an exact fraction
`(found, total)`; the JS float comparisons on these small fractions agree with
exact rational comparison, so no precision is lost. -/
def calculateDOMScore (doc : Doc) (selectors dataAttributes : List String) : Nat × Nat :=
  let found := (selectors.filter fun sel => selPresent doc sel).length
    + (dataAttributes.filter fun attr => selPresent doc ("[" ++ attr ++ "]")).length
  (found, selectors.length + dataAttributes.length)

/-- Exact comparison `f₁/t₁ > f₂/t₂` by cross multiplication. -/
def scoreGt (a b : Nat × Nat) : Bool :=
  a.1 * b.2 > b.1 * a.2

/-- Exact comparison `f/t > 0.5` by cross multiplication. -/
def scoreGtHalf (a : Nat × Nat) : Bool :=
  2 * a.1 > a.2

/-- The `detectByDOM` static method: unique markers short-circuit, then the
coverage scores are compared. -/
def detectByDOM (doc : Doc) : Option Platform :=
  if hasUniqueMarkers doc helpscoutUniqueMarkers then some Platform.helpscout
  else if hasUniqueMarkers doc freescoutUniqueMarkers then some Platform.freescout
  else
    let helpScoutScore := calculateDOMScore doc helpscoutSelectors helpscoutDataAttributes
    let freeScoutScore := calculateDOMScore doc freescoutSelectors freescoutDataAttributes
    if scoreGt helpScoutScore freeScoutScore && scoreGtHalf helpScoutScore then
      some Platform.helpscout
    else if scoreGt freeScoutScore helpScoutScore && scoreGtHalf freeScoutScore then
      some Platform.freescout
    else none

/-- The globals and meta tags visible to `detectByAPI`. -/
structure ApiEnv where
  hsGlobal : Bool := false
  appData : Bool := false
  helpScoutGlobal : Bool := false
  fsGlobal : Bool := false
  freeScoutGlobal : Bool := false
  conversationGlobal : Bool := false
  metaTags : List (String × String) := []

/-- The meta-tag loop of `detectByAPI` over `(content, name)` pairs. -/
def detectByAPIMeta : List (String × String) → Option Platform
  | [] => none
  | (content, nm) :: rest =>
    if strIncludes content "Help Scout" || strIncludes nm "helpscout" then
      some Platform.helpscout
    else if strIncludes content "FreeScout" || strIncludes nm "freescout" then
      some Platform.freescout
    else detectByAPIMeta rest

/-- The `detectByAPI` static method: platform globals first, then meta tags. -/
def detectByAPI (env : ApiEnv) : Option Platform :=
  if env.hsGlobal || env.appData || env.helpScoutGlobal then some Platform.helpscout
  else if env.fsGlobal || env.freeScoutGlobal || env.conversationGlobal then
    some Platform.freescout
  else detectByAPIMeta env.metaTags

/-- The `getUserOverride` static method: the source always returns `null`. -/
def getUserOverride : Option Platform := none

/-- The `combineDetectionStrategies` static method: override wins; otherwise
one vote per non-null strategy, a second vote for the API strategy, strict
majority wins, ties and zero votes give `null`. -/
def combineDetectionStrategies (urlDetection domDetection apiDetection userOverride :
    Option Platform) : Option Platform :=
  match userOverride with
  | some p => some p
  | none =>
    let votesF : Nat :=
      (if urlDetection = some Platform.freescout then 1 else 0)
        + (if domDetection = some Platform.freescout then 1 else 0)
        + (if apiDetection = some Platform.freescout then 2 else 0)
    let votesH : Nat :=
      (if urlDetection = some Platform.helpscout then 1 else 0)
        + (if domDetection = some Platform.helpscout then 1 else 0)
        + (if apiDetection = some Platform.helpscout then 2 else 0)
    if votesH > votesF then some Platform.helpscout
    else if votesF > votesH then some Platform.freescout
    else none

/-- The other platform, for stating tie-break facts. -/
def otherPlatform : Platform → Platform
  | Platform.freescout => Platform.helpscout
  | Platform.helpscout => Platform.freescout

/-- The weighted vote count of `combineDetectionStrategies` in the arithmetic
the specification describes: one vote per agreeing non-null strategy, two for
the API strategy. -/
def votesArith (p : Platform) (u d a : Option Platform) : Nat :=
  (if u = some p then 1 else 0) + (if d = some p then 1 else 0)
    + (if a = some p then 2 else 0)

/-- The detector's static cache (`_cachedPlatform`, `_cacheTimestamp`). -/
structure DetectorState where
  cachedPlatform : Option Platform := none
  cacheTimestamp : Option Nat := none

/-- The `CACHE_DURATION` constant: five minutes in milliseconds. -/
def CACHE_DURATION : Nat := 5 * 60 * 1000

/-- The `isCacheValid` static method; a falsy cached platform or timestamp is
invalid (`Date.now()` is strictly positive in any modelled run, so the
timestamp's JS falsiness coincides with absence). -/
def isCacheValid (st : DetectorState) (now : Nat) : Bool :=
  match st.cachedPlatform, st.cacheTimestamp with
  | some _, some ts => now - ts < CACHE_DURATION
  | _, _ => false

/-- The `cacheResult` static method. -/
def cacheResult (st : DetectorState) (platform : Option Platform) (now : Nat) :
    DetectorState :=
  { cachedPlatform := platform, cacheTimestamp := some now }

/-- The `clearCache` static method. -/
def clearCache (st : DetectorState) : DetectorState :=
  { cachedPlatform := none, cacheTimestamp := none }

/-- The page input of one `detectPlatform` call. -/
structure Page where
  url : String
  doc : Doc
  api : ApiEnv

/-- Result of one `detectPlatform` call: the returned value, the new cache
state, and whether the cached value was served (`true`) or the four strategies
ran (`false`). -/
structure DetectResult where
  returned : Option Platform
  state : DetectorState
  usedCache : Bool

/-- The `detectPlatform` static method as a step of the cache state machine. -/
def detectPlatform (st : DetectorState) (page : Page) (now : Nat) : DetectResult :=
  if isCacheValid st now then
    { returned := st.cachedPlatform, state := st, usedCache := true }
  else
    let urlDetection := detectByURL page.url
    let domDetection := detectByDOM page.doc
    let apiDetection := detectByAPI page.api
    let userOverride := getUserOverride
    let detected := combineDetectionStrategies urlDetection domDetection apiDetection userOverride
    { returned := detected, state := cacheResult st detected now, usedCache := false }

/-! ### PlatformManager (platformManager.js) -/

/-- JS values returned by adapter methods through the Manager facade. -/
inductive JsVal where
  | null
  | bool : Bool → JsVal
  | arr : List JsVal → JsVal
  | str : String → JsVal

/-- The `switch (methodName)` of `executeAdapterMethod`'s catch handler: the
method-specific safe default. -/
def adapterMethodDefault (methodName : String) : JsVal :=
  if methodName = "extractThread" then JsVal.arr []
  else if methodName = "extractCustomerInfo" || methodName = "getCurrentUser"
      || methodName = "getReplyEditor" then JsVal.null
  else if methodName = "injectReply" || methodName = "showGeneratingStatus"
      || methodName = "clearGeneratingStatus" then JsVal.bool false
  else JsVal.null

/-- The `executeAdapterMethod` dispatcher.  Its try-block outcomes are the
initialization result (consulted only when not yet initialized), the adapter's
presence, the method's presence, and the adapter call itself, which either
returns a value or throws; every throw is caught and answered with the
method-specific default, so the returned value is total (the promise always
resolves). -/
def executeAdapterMethod (initialized : Bool) (initResult : Bool)
    (hasAdapter : Bool) (hasMethod : Bool)
    (adapterCall : Except String JsVal) (methodName : String) : JsVal :=
  let tryOutcome : Except String JsVal :=
    if !initialized && !initResult then Except.error "Failed to initialize platform manager"
    else if !hasAdapter then Except.error "No adapter available"
    else if !hasMethod then Except.error "Method not available"
    else adapterCall
  match tryOutcome with
  | Except.ok v => v
  | Except.error _ => adapterMethodDefault methodName

/-- The `maxErrors` field of the Manager. -/
def maxErrors : Nat := 3

/-- Outcome of one pass of the `_performInitialization` try block. -/
inductive InitOutcome where
  | success
  | unsupported
  | throws

/-- Observable trace of `_performInitialization`: resolved value, final error
count, the awaited delays in order, and the number of `error` events emitted
via `handleError`. -/
structure InitTrace where
  result : Bool
  errorCount : Nat
  delays : List Nat
  errorEvents : Nat
deriving DecidableEq, Repr

/-- The `_performInitialization` retry recursion: a throw increments the error
counter, emits an `error` event, and — while the counter is below `maxErrors`
— awaits `retryDelay * errorCount` and re-runs the whole initialize sequence;
otherwise it resolves `false`.  `outcomes` supplies the result of each
successive pass of the try block. -/
def performInitialization (retryDelay : Nat) : List InitOutcome → Nat → InitTrace
  | [], errorCount => ⟨false, errorCount, [], 0⟩
  | outcome :: rest, errorCount =>
    match outcome with
    | InitOutcome.success => ⟨true, errorCount, [], 0⟩
    | InitOutcome.unsupported => ⟨false, errorCount, [], 0⟩
    | InitOutcome.throws =>
      let ec := errorCount + 1
      if ec < maxErrors then
        let t := performInitialization retryDelay rest ec
        ⟨t.result, t.errorCount, retryDelay * ec :: t.delays, t.errorEvents + 1⟩
      else ⟨false, ec, [], 1⟩

/-! ### Platform adapters (platformAdapter.js, freescoutAdapter.js,
helpscoutAdapter.js) -/

/-- A reply editor element as the adapters observe it. -/
structure Editor where
  slateAttr : Bool := false
  contentEditable : Bool := false
  classes : List String := []
  tagName : String := "DIV"
  innerHTML : String := ""
  value : String := ""
deriving DecidableEq, Repr

/-- The `sanitizeText` method of the base adapter: five sequential global
entity replaces. -/
def sanitizeTextBase (text : String) : String :=
  let s := replaceSub '&' [] "&amp;".data text.data
  let s := replaceSub '<' [] "&lt;".data s
  let s := replaceSub '>' [] "&gt;".data s
  let s := replaceSub (Char.ofNat 34) [] "&quot;".data s
  let s := replaceSub (Char.ofNat 39) [] "&#x27;".data s
  String.mk s

/-- The `formatReplyHTML` method of the base adapter: `HTMLSanitizer.sanitize`
with markdown and line-break conversion requested. -/
def formatReplyHTML (reply : String) : String :=
  sanitize reply { convertMarkdown := some true, convertLineBreaks := some true }

/-- The `htmlToPlainText` method of the base adapter: parse and take
`textContent`. -/
def htmlToPlainText (html : String) : String :=
  String.mk (textContentList (parseHTML html.data))

/-- The synthetic events fired by `triggerInputEvents`, in dispatch order. -/
def triggerInputEventsList : List String := ["input", "change", "keyup"]

/-- One classified thread item of the FreeScout conversation view. -/
structure ThreadItem where
  classes : List String
  contentText : Option String
  personText : Option String

/-- A `ConversationMessage` produced by thread extraction. -/
structure Message where
  role : String
  content : String
deriving DecidableEq, Repr

/-- One iteration of the `threadItems.forEach` body of the FreeScout
`extractThread`. -/
def freescoutThreadStep (acc : List Message) (item : ThreadItem) : List Message :=
  match item.contentText with
  | none => acc
  | some raw =>
    let messageText := sanitizeTextBase (String.mk (trimChars raw.data))
    let personName :=
      match item.personText with
      | some p => sanitizeTextBase (String.mk (trimChars p.data))
      | none => "Unknown"
    if item.classes.contains "thread-type-customer" then
      acc ++ [⟨"user", "Customer (" ++ personName ++ "): " ++ messageText⟩]
    else if item.classes.contains "thread-type-message" then
      acc ++ [⟨"assistant", "Agent (" ++ personName ++ "): " ++ messageText⟩]
    else if item.classes.contains "thread-type-note" then
      acc ++ [⟨"system", "Internal Note from " ++ personName ++ ": " ++ messageText⟩]
    else acc

/-- The FreeScout adapter's `extractThread`: classify each `.thread-item`,
falling back to the concatenated generic content when nothing classified. -/
def freescoutExtractThread (items : List ThreadItem) (fallbackContent : Option String) :
    List Message :=
  let messages := items.foldl freescoutThreadStep []
  if messages.isEmpty then
    match fallbackContent with
    | some f => [⟨"user", f⟩]
    | none => []
  else messages

/-- The base adapter's `injectReply`: resolve the editor, sanitize via
`formatReplyHTML`, write `innerHTML` (contentEditable) or `value` (text
field), fire the synthetic events; failures are logged, not thrown.  Returns
the final editor and the dispatched events. -/
def baseInjectReply (editor : Option Editor) (reply : String) :
    Option Editor × List String :=
  match editor with
  | none => (none, [])
  | some ed =>
    let sanitizedReply := formatReplyHTML reply
    if ed.contentEditable || ed.classes.contains "note-editable" then
      (some { ed with innerHTML := sanitizedReply }, triggerInputEventsList)
    else if ed.tagName = "TEXTAREA" || ed.tagName = "INPUT" then
      (some { ed with value := htmlToPlainText sanitizedReply }, triggerInputEventsList)
    else (some ed, [])

/-- Environment of one `injectIntoSlateEditor` run: which strategies are
available, succeed or throw on this page. -/
structure SlateEnv where
  apiPhaseThrows : Bool := false
  slateApiAvailable : Bool := false
  pasteThrows : Bool := false
  pasteChangedContent : Bool := false
  inputSimThrows : Bool := false

/-- The Help Scout adapter's `injectIntoSlateEditor`: the Slate-API, paste and
input-simulation strategies in order.  A throw outside the two inner
try-blocks hits the outer catch and resolves `false`; when the last strategy's
inner catch fires, control falls off the end of the function and the promise
resolves `undefined` (`none` here).  No branch writes `innerHTML`. -/
def injectIntoSlateEditor (env : SlateEnv) : Option Bool :=
  if env.apiPhaseThrows then some false
  else if env.slateApiAvailable then some true
  else if !env.pasteThrows && env.pasteChangedContent then some true
  else if !env.inputSimThrows then some true
  else none

/-- The Help Scout adapter's `injectReply`: no editor resolves `false`; a
Slate editor goes through `injectIntoSlateEditor` whose outcome is logged but
discarded; the other editor kinds are written directly.  Returns the resolved
boolean and the final editor. -/
def hsInjectReply (editor : Option Editor) (env : SlateEnv) (reply : String) :
    Bool × Option Editor :=
  match editor with
  | none => (false, none)
  | some ed =>
    if ed.slateAttr then
      let _success := injectIntoSlateEditor env
      (true, some ed)
    else if ed.contentEditable then
      let sanitizedReply := sanitize reply defaultOptions
      let formattedHTML := formatReplyHTML sanitizedReply
      (true, some { ed with innerHTML := formattedHTML })
    else if ed.tagName = "TEXTAREA" then
      (true, some { ed with value := reply })
    else (true, some ed)

/-! ## Identity of the sanitizer on inert strings

The following lemmas show each pipeline stage fixes strings none of whose
characters can start or continue any of its patterns. -/

theorem toLower_fix_low {c d : Char} (hd : d.toNat < 65) (h : c.toLower = d) : c = d := by
  unfold Char.toLower at h
  by_cases hc : c.toNat ≥ 65 ∧ c.toNat ≤ 90
  · exfalso
    rw [if_pos hc] at h
    have h2 := congrArg Char.toNat h
    have h3 : (Char.ofNat (c.toNat + 32)).toNat = c.toNat + 32 := by
      unfold Char.ofNat
      rw [dif_pos]
      · rfl
      · exact Or.inl (by omega)
    rw [h3] at h2
    omega
  · rw [if_neg hc] at h
    exact h

theorem listStartsWithCI_exists {n h : List Char} (hp : listStartsWithCI n h = true) :
    ∀ x ∈ n, ∃ y ∈ h, y.toLower = x.toLower := by
  induction n generalizing h with
  | nil => intro x hx; cases hx
  | cons a as ih =>
    cases h with
    | nil => simp [listStartsWithCI] at hp
    | cons b bs =>
      simp only [listStartsWithCI, Bool.and_eq_true, decide_eq_true_eq] at hp
      intro x hx
      rcases List.mem_cons.mp hx with rfl | hx'
      · exact ⟨b, List.mem_cons_self _ _, hp.1.symm⟩
      · obtain ⟨y, hy, hyl⟩ := ih hp.2 x hx'
        exact ⟨y, List.mem_cons_of_mem _ hy, hyl⟩

theorem removeSubCIF_id (t₀ : Char) (trest : List Char) (d : Char)
    (hd : d ∈ t₀ :: trest) (hdlow : d.toNat < 65) (hdfix : d.toLower = d) :
    ∀ (fuel : Nat) (s : List Char), d ∉ s → removeSubCIF t₀ trest fuel s = s := by
  intro fuel
  induction fuel with
  | zero => intro s _; rfl
  | succ fuel ih =>
    intro s hs
    match s with
    | [] => rfl
    | c :: cs =>
      have hcs : d ∉ cs := fun hmem => hs (List.mem_cons_of_mem _ hmem)
      simp only [removeSubCIF]
      rw [if_neg]
      · rw [ih cs hcs]
      · intro hp
        obtain ⟨y, hy, hyl⟩ := listStartsWithCI_exists hp d hd
        rw [hdfix] at hyl
        exact hs (toLower_fix_low hdlow hyl ▸ hy)

theorem stripScriptTagsF_id :
    ∀ (fuel : Nat) (s : List Char), '<' ∉ s → stripScriptTagsF fuel s = s := by
  intro fuel
  induction fuel with
  | zero => intro s _; rfl
  | succ fuel ih =>
    intro s hs
    match s with
    | [] => rfl
    | c :: cs =>
      have hcs : '<' ∉ cs := fun hmem => hs (List.mem_cons_of_mem _ hmem)
      simp only [stripScriptTagsF]
      rw [if_neg]
      · rw [ih cs hcs]
      · intro hcond
        rw [Bool.and_eq_true] at hcond
        obtain ⟨y, hy, hyl⟩ := listStartsWithCI_exists hcond.1 '<' (by decide)
        have : (Char.toLower '<') = '<' := by decide
        rw [this] at hyl
        exact hs (toLower_fix_low (by decide) hyl ▸ hy)

theorem stripOnHandlersF_id :
    ∀ (fuel : Nat) (s : List Char), '=' ∉ s → stripOnHandlersF fuel s = s := by
  intro fuel
  induction fuel with
  | zero => intro s _; rfl
  | succ fuel ih =>
    intro s hs
    match s with
    | [] => rfl
    | [c] => rfl
    | c₁ :: c₂ :: rest =>
      have hrest : '=' ∉ c₂ :: rest := fun hmem => hs (List.mem_cons_of_mem _ hmem)
      have hnomatch : ∀ r₃, (rest.dropWhile isWordChar).dropWhile isSpaceChar
          ≠ '=' :: r₃ := by
        intro r₃ heq
        have h1 : '=' ∈ (rest.dropWhile isWordChar).dropWhile isSpaceChar := by
          rw [heq]; exact List.mem_cons_self _ _
        have h2 : '=' ∈ rest :=
          (List.dropWhile_sublist isWordChar).subset
            ((List.dropWhile_sublist isSpaceChar).subset h1)
        exact hs (List.mem_cons_of_mem _ (List.mem_cons_of_mem _ h2))
      simp only [stripOnHandlersF]
      split <;> rw [ih (c₂ :: rest) hrest]

theorem mdLinksF_id :
    ∀ (fuel : Nat) (s : List Char), '[' ∉ s → mdLinksF fuel s = s := by
  intro fuel
  induction fuel with
  | zero => intro s _; rfl
  | succ fuel ih =>
    intro s hs
    match s with
    | [] => rfl
    | c :: cs =>
      have hcs : '[' ∉ cs := fun hmem => hs (List.mem_cons_of_mem _ hmem)
      have hc : c ≠ '[' := fun hc => hs (hc ▸ List.mem_cons_self _ _)
      simp only [mdLinksF]
      rw [if_neg (by simpa using hc)]
      rw [ih cs hcs]

theorem mdWrapF_id (o₁ : Char) (oRest close : List Char) (forb : Char)
    (pre post : List Char) :
    ∀ (fuel : Nat) (s : List Char), o₁ ∉ s →
      mdWrapF o₁ oRest close forb pre post fuel s = s := by
  intro fuel
  induction fuel with
  | zero => intro s _; rfl
  | succ fuel ih =>
    intro s hs
    match s with
    | [] => rfl
    | c :: cs =>
      have hcs : o₁ ∉ cs := fun hmem => hs (List.mem_cons_of_mem _ hmem)
      have hc : o₁ ≠ c := fun hc => hs (hc ▸ List.mem_cons_self _ _)
      simp only [mdWrapF, listStartsWith]
      rw [if_neg (by simp [hc])]
      rw [ih cs hcs]

theorem breakOnSub_none_of_head {n₀ : Char} {nr : List Char} :
    ∀ s : List Char, n₀ ∉ s → breakOnSub (n₀ :: nr) s = none := by
  intro s
  induction s with
  | nil => intro _; rfl
  | cons c cs ih =>
    intro hs
    have hcs : n₀ ∉ cs := fun hmem => hs (List.mem_cons_of_mem _ hmem)
    have hc : n₀ ≠ c := fun hc => hs (hc ▸ List.mem_cons_self _ _)
    simp only [breakOnSub, listStartsWith]
    rw [if_neg (by simp [hc])]
    rw [ih hcs]

theorem nlToBr_id (s : List Char) (hs : '\n' ∉ s) : nlToBr s = s := by
  induction s with
  | nil => rfl
  | cons c cs ih =>
    have hcs : '\n' ∉ cs := fun hmem => hs (List.mem_cons_of_mem _ hmem)
    have hc : c ≠ '\n' := fun hc => hs (hc ▸ List.mem_cons_self _ _)
    simp only [nlToBr, List.map_cons, List.flatten_cons]
    rw [if_neg hc]
    simpa [nlToBr] using ih hcs

theorem convertLineBreaksLF_id (fuel : Nat) (s : List Char) (hlt : '<' ∉ s)
    (hnl : '\n' ∉ s) : convertLineBreaksLF fuel s = s := by
  cases fuel with
  | zero => rfl
  | succ fuel =>
    have hsp : splitFirstPre s = none := by
      unfold splitFirstPre
      rw [show ("<pre>".data) = '<' :: "pre>".data from rfl]
      rw [breakOnSub_none_of_head s hlt]
    simp only [convertLineBreaksLF, hsp]
    exact nlToBr_id s hnl

theorem parseNodesF_text :
    ∀ (fuel : Nat) (s : List Char), s.length ≤ fuel → '<' ∉ s →
      parseNodesF fuel s = (s.map fun c => HNode.text [c], []) := by
  intro fuel
  induction fuel with
  | zero =>
    intro s hlen _
    have : s = [] := List.length_eq_zero.mp (Nat.le_zero.mp hlen)
    subst this
    rfl
  | succ fuel ih =>
    intro s hlen hs
    match s with
    | [] => rfl
    | c :: cs =>
      have hcs : '<' ∉ cs := fun hmem => hs (List.mem_cons_of_mem _ hmem)
      have hc : c ≠ '<' := fun hc => hs (hc ▸ List.mem_cons_self _ _)
      have hlen' : cs.length ≤ fuel := by
        simp only [List.length_cons] at hlen; omega
      simp only [parseNodesF]
      rw [if_neg (by simpa using hc)]
      rw [ih cs hlen' hcs]
      simp

theorem preprocessHTMLInput_id (s : List Char) (hcr : '\r' ∉ s)
    (hnul : Char.ofNat 0 ∉ s) : preprocessHTMLInput s = s := by
  induction s with
  | nil => rfl
  | cons c cs ih =>
    have h1 : c ≠ '\r' := fun h => hcr (h ▸ List.mem_cons_self _ _)
    have h2 : c ≠ Char.ofNat 0 := fun h => hnul (h ▸ List.mem_cons_self _ _)
    have hcr' : '\r' ∉ cs := fun h => hcr (List.mem_cons_of_mem _ h)
    have hnul' : Char.ofNat 0 ∉ cs := fun h => hnul (List.mem_cons_of_mem _ h)
    cases cs with
    | nil => simp [preprocessHTMLInput, h1, h2]
    | cons d ds =>
      simp only [preprocessHTMLInput]
      rw [if_neg h1, if_neg h2, ih hcr' hnul']

theorem parseHTML_text (s : List Char) (hs : '<' ∉ s) (hcr : '\r' ∉ s)
    (hnul : Char.ofNat 0 ∉ s) :
    parseHTML s = s.map fun c => HNode.text [c] := by
  unfold parseHTML
  rw [preprocessHTMLInput_id s hcr hnul]
  unfold parseTop
  rw [parseNodesF_text (s.length + 1) s (by omega) hs]

theorem sanitizeNodeList_text (s : List Char) :
    sanitizeNodeList (s.map fun c => HNode.text [c]) = s.map fun c => HNode.text [c] := by
  induction s with
  | nil => rfl
  | cons c cs ih =>
    simp only [List.map_cons, sanitizeNodeList, sanitizeOneNode]
    rw [ih]

theorem serializeNodes_text (s : List Char) (h1 : '&' ∉ s) (h2 : '<' ∉ s)
    (h3 : '>' ∉ s) (h4 : Char.ofNat 160 ∉ s) :
    serializeNodes (s.map fun c => HNode.text [c]) = s := by
  induction s with
  | nil => rfl
  | cons c cs ih =>
    have e1 : '&' ∉ cs := fun hm => h1 (List.mem_cons_of_mem _ hm)
    have e2 : '<' ∉ cs := fun hm => h2 (List.mem_cons_of_mem _ hm)
    have e3 : '>' ∉ cs := fun hm => h3 (List.mem_cons_of_mem _ hm)
    have e4 : Char.ofNat 160 ∉ cs := fun hm => h4 (List.mem_cons_of_mem _ hm)
    have hc1 : c ≠ '&' := fun hc => h1 (hc ▸ List.mem_cons_self _ _)
    have hc2 : c ≠ '<' := fun hc => h2 (hc ▸ List.mem_cons_self _ _)
    have hc3 : c ≠ '>' := fun hc => h3 (hc ▸ List.mem_cons_self _ _)
    have hc4 : c ≠ Char.ofNat 160 := fun hc => h4 (hc ▸ List.mem_cons_self _ _)
    simp only [List.map_cons, serializeNodes, serializeNode, List.map_cons,
      List.flatten_cons, List.map_nil, List.flatten_nil, List.append_nil]
    rw [escTextChar, if_neg hc1, if_neg hc2, if_neg hc3, if_neg hc4]
    rw [ih e1 e2 e3 e4]
    rfl

theorem parseAndSanitizeL_id (s : List Char) (h1 : '&' ∉ s) (h2 : '<' ∉ s)
    (h3 : '>' ∉ s) (hcr : '\r' ∉ s) (hnul : Char.ofNat 0 ∉ s)
    (hnbsp : Char.ofNat 160 ∉ s) : parseAndSanitizeL s = s := by
  unfold parseAndSanitizeL
  rw [parseHTML_text s h2 hcr hnul, sanitizeNodeList_text s,
    serializeNodes_text s h1 h2 h3 hnbsp]

theorem removeDangerousPatterns_id (s : List Char) (hlt : '<' ∉ s) (heq : '=' ∉ s)
    (hcolon : ':' ∉ s) : removeDangerousPatterns s = s := by
  unfold removeDangerousPatterns removeSubCI stripScriptTags stripOnHandlers
  simp only [stripScriptTagsF_id, stripOnHandlersF_id,
    removeSubCIF_id 'j' "avascript:".data ':' (by decide) (by decide) (by decide),
    removeSubCIF_id 'd' "ata:text/html".data ':' (by decide) (by decide) (by decide),
    removeSubCIF_id '<' "iframe".data '<' (by decide) (by decide) (by decide),
    removeSubCIF_id '<' "embed".data '<' (by decide) (by decide) (by decide),
    removeSubCIF_id '<' "object".data '<' (by decide) (by decide) (by decide),
    hlt, heq, hcolon, not_false_eq_true]

theorem finalValidation_id (s : List Char) (hlt : '<' ∉ s) (heq : '=' ∉ s) :
    finalValidation s = s := by
  unfold finalValidation stripScriptTags stripOnHandlers
  rw [stripScriptTagsF_id _ s hlt, stripOnHandlersF_id _ s heq]

theorem convertMarkdownToHTML_id (s : List Char) (hstar : '*' ∉ s) (htick : (Char.ofNat 96) ∉ s)
    (hbr : '[' ∉ s) : convertMarkdownToHTML s = s := by
  unfold convertMarkdownToHTML mdLinks mdWrap
  simp only [mdLinksF_id, mdWrapF_id, hstar, htick, hbr, not_false_eq_true]

theorem sanitize_id_of_inert (s : String) (h : s.data.all inertChar = true) :
    sanitize s defaultOptions = s := by
  have hmem : ∀ c ∈ s.data, inertChar c = true := List.all_eq_true.mp h
  have hnot : ∀ d : Char, (inertChar d = false) → d ∉ s.data := by
    intro d hd hmemd
    rw [hmem d hmemd] at hd
    cases hd
  have hlt : '<' ∉ s.data := hnot '<' (by decide)
  have hgt : '>' ∉ s.data := hnot '>' (by decide)
  have hamp : '&' ∉ s.data := hnot '&' (by decide)
  have hstar : '*' ∉ s.data := hnot '*' (by decide)
  have htick : (Char.ofNat 96) ∉ s.data := hnot (Char.ofNat 96) (by decide)
  have hbr : '[' ∉ s.data := hnot '[' (by decide)
  have hnl : '\n' ∉ s.data := hnot '\n' (by decide)
  have heq : '=' ∉ s.data := hnot '=' (by decide)
  have hcolon : ':' ∉ s.data := hnot ':' (by decide)
  have hcr : '\r' ∉ s.data := hnot '\r' (by decide)
  have hnul : Char.ofNat 0 ∉ s.data := hnot (Char.ofNat 0) (by decide)
  have hnbsp : Char.ofNat 160 ∉ s.data := hnot (Char.ofNat 160) (by decide)
  have hclb : convertLineBreaksL s.data = s.data := by
    unfold convertLineBreaksL
    exact convertLineBreaksLF_id _ s.data hlt hnl
  have hfinal : String.mk s.data = s := by cases s; rfl
  unfold sanitize
  by_cases hempty : s = ""
  · rw [if_pos hempty, hempty]
  · rw [if_neg hempty]
    simp only [defaultOptions, ne_eq, reduceCtorEq, not_false_eq_true, if_true,
      removeDangerousPatterns_id s.data hlt heq hcolon,
      parseAndSanitizeL_id s.data hamp hlt hgt hcr hnul hnbsp,
      convertMarkdownToHTML_id s.data hstar htick hbr,
      hclb, finalValidation_id s.data hlt heq, hfinal]

/-! ## Claim theorems -/

/-- C1: when the active adapter's method throws (the Manager is initialized,
the adapter is present, the method exists, and the call errors), the dispatcher
`executeAdapterMethod` resolves — it is a total function into `JsVal`, never a
rejection — to the method-specific safe default: `extractThread` to the empty
list, `extractCustomerInfo`/`getCurrentUser`/`getReplyEditor` to `null`, and
`injectReply`/`showGeneratingStatus`/`clearGeneratingStatus` to `false`, for
every adapter error `e`. -/
theorem manager_dispatcher_safe_defaults (e : String) (initResult : Bool) :
    executeAdapterMethod true initResult true true (Except.error e) "extractThread"
        = JsVal.arr []
    ∧ executeAdapterMethod true initResult true true (Except.error e) "extractCustomerInfo"
        = JsVal.null
    ∧ executeAdapterMethod true initResult true true (Except.error e) "getCurrentUser"
        = JsVal.null
    ∧ executeAdapterMethod true initResult true true (Except.error e) "getReplyEditor"
        = JsVal.null
    ∧ executeAdapterMethod true initResult true true (Except.error e) "injectReply"
        = JsVal.bool false
    ∧ executeAdapterMethod true initResult true true (Except.error e) "showGeneratingStatus"
        = JsVal.bool false
    ∧ executeAdapterMethod true initResult true true (Except.error e) "clearGeneratingStatus"
        = JsVal.bool false :=
  ⟨rfl, rfl, rfl, rfl, rfl, rfl, rfl⟩

/-- C2 counterexample: the claim says the doubled API vote can alone outvote a
conflicting URL+DOM pair; in the code that configuration is a 2-2 tie and
yields `null`, not the API's platform. -/
theorem combine_api_does_not_outvote_pair :
    combineDetectionStrategies (some Platform.freescout) (some Platform.freescout)
        (some Platform.helpscout) none = none
    ∧ combineDetectionStrategies (some Platform.freescout) (some Platform.freescout)
        (some Platform.helpscout) none ≠ some Platform.helpscout := by
  decide

/-- C2 amended: `combineDetectionStrategies` implements the weighted-vote
arithmetic — a non-null user override is returned unconditionally; otherwise
each non-null strategy adds one vote and the API result counts two, the
strictly highest count wins and any tie (including 1-1 and the 2-2 of a
URL+DOM pair against the doubled API vote) or zero votes yields `null`; the
doubled API vote ties, rather than outvotes, a conflicting URL+DOM pair, and
does outvote a single conflicting strategy. -/
theorem combine_weighted_vote_arithmetic :
    (∀ (p : Platform) (u d a : Option Platform),
        combineDetectionStrategies u d a (some p) = some p)
    ∧ (∀ (u d a : Option Platform) (p : Platform),
        votesArith p u d a > votesArith (otherPlatform p) u d a →
        combineDetectionStrategies u d a none = some p)
    ∧ (∀ (u d a : Option Platform) (p : Platform),
        votesArith p u d a = votesArith (otherPlatform p) u d a →
        combineDetectionStrategies u d a none = none)
    ∧ (∀ p q : Platform, p ≠ q →
        combineDetectionStrategies (some p) (some q) none none = none)
    ∧ combineDetectionStrategies none none none none = none
    ∧ (∀ p q : Platform, p ≠ q →
        combineDetectionStrategies (some p) (some p) (some q) none = none)
    ∧ (∀ p q : Platform, p ≠ q →
        combineDetectionStrategies (some q) none (some p) none = some p)
    ∧ (∀ p q : Platform, p ≠ q →
        combineDetectionStrategies none (some q) (some p) none = some p) := by
  decide

/-- C2 witness: the amended theorem applied at a concrete vote combination —
one URL vote against the doubled API vote, where the API platform wins. -/
theorem combine_weighted_vote_arithmetic_witness :
    combineDetectionStrategies (some Platform.freescout) none (some Platform.helpscout)
        none = some Platform.helpscout :=
  combine_weighted_vote_arithmetic.2.2.2.2.2.2.1 Platform.helpscout Platform.freescout
    (by decide)

/-- C3: on a Slate editor `injectIntoSlateEditor` tries its three strategies
in order, refuses the raw-HTML fallback, and resolves `false` when everything
failed (here: the Slate-API phase throws, hitting the outer catch), yet
`injectReply` discards that outcome: whenever an editor is found and carries
`data-slate-editor`, it resolves `true` — with the editor untouched — instead
of reporting the failure to the caller as the claim and the code's own
comments require. -/
theorem slate_injection_failure_reported_as_success :
    injectIntoSlateEditor { apiPhaseThrows := true } = some false
    ∧ (∀ (env : SlateEnv) (ed : Editor), ed.slateAttr = true →
        (hsInjectReply (some ed) env "reply").1 = true)
    ∧ hsInjectReply (some { slateAttr := true }) { apiPhaseThrows := true } "reply"
        = (true, some { slateAttr := true }) := by
  refine ⟨rfl, ?_, rfl⟩
  intro env ed h
  simp [hsInjectReply, h]

/-- C3 witness: the swallowed-failure fact applied at the all-strategies-fail
environment. -/
theorem slate_injection_failure_reported_as_success_witness :
    (hsInjectReply (some { slateAttr := true }) { apiPhaseThrows := true } "reply").1
      = true :=
  slate_injection_failure_reported_as_success.2.1 { apiPhaseThrows := true }
    { slateAttr := true } rfl

/-- C6: a URL containing `helpscout.net` always satisfies the Help Scout
include list, so `detectByURL` takes the Help Scout branch and can only answer
`null` or `helpscout` — never `freescout`, whatever the rest of the URL. -/
theorem detectByURL_helpscout_net_never_freescout (url : String)
    (h : strIncludes url "helpscout.net" = true) :
    detectByURL url ≠ some Platform.freescout := by
  have hmp : matchesPattern url helpscoutUrlIncludes helpscoutPatterns = true := by
    unfold matchesPattern helpscoutUrlIncludes
    simp [h]
  unfold detectByURL
  rw [if_pos hmp]
  split
  · intro hc; cases hc
  · intro hc; cases hc

/-- C6 witness: the exclusion applied to a concrete Help Scout-hosted URL. -/
theorem detectByURL_helpscout_net_never_freescout_witness :
    strIncludes "https://secure.helpscout.net/conversation/123" "helpscout.net" = true
    ∧ detectByURL "https://secure.helpscout.net/conversation/123"
        ≠ some Platform.freescout :=
  ⟨by decide, detectByURL_helpscout_net_never_freescout _ (by decide)⟩

/-- C9: when every pass of `_performInitialization` throws, the trace from a
fresh Manager is exactly three attempts — each incrementing the error counter
and emitting an `error` event — with linearly increasing waits `d·1` and `d·2`
between them, after which the recursion stops and resolves `false`; and in
general the retry recursion emits at most `maxErrors - ec` error events from
error count `ec`, so it always terminates within the bound (the model is a
total function: nothing is thrown to the page). -/
theorem init_retry_linear_backoff_bounded (d : Nat) (rest : List InitOutcome) :
    performInitialization d
        (InitOutcome.throws :: InitOutcome.throws :: InitOutcome.throws :: rest) 0
      = ⟨false, 3, [d * 1, d * 2], 3⟩
    ∧ (∀ (outs : List InitOutcome) (ec : Nat), ec < maxErrors →
        (performInitialization d outs ec).errorEvents ≤ maxErrors - ec) := by
  constructor
  · rfl
  · intro outs
    induction outs with
    | nil => intro ec _; simp [performInitialization]
    | cons o rest ih =>
      intro ec hec
      cases o with
      | success => simp [performInitialization]
      | unsupported => simp [performInitialization]
      | throws =>
        simp only [performInitialization]
        by_cases hlt : ec + 1 < maxErrors
        · rw [if_pos hlt]
          have := ih (ec + 1) hlt
          simp only [maxErrors] at *
          omega
        · rw [if_neg hlt]
          simp only [maxErrors] at *
          omega

/-- C9 witness: the all-throws trace and the event bound at concrete inputs. -/
theorem init_retry_linear_backoff_bounded_witness :
    performInitialization 1000
        (InitOutcome.throws :: InitOutcome.throws :: InitOutcome.throws :: []) 0
      = ⟨false, 3, [1000 * 1, 1000 * 2], 3⟩
    ∧ (performInitialization 1000 [] 0).errorEvents ≤ maxErrors - 0 :=
  ⟨(init_retry_linear_backoff_bounded 1000 []).1,
   (init_retry_linear_backoff_bounded 1000 []).2 [] 0 (by decide)⟩

/-- C10: a valid detector cache never holds a null platform, and after any
`detectPlatform` call that returned `null`, the next call — whatever page and
time — runs the strategies again instead of serving the cache. -/
theorem cache_never_serves_null :
    (∀ (st : DetectorState) (now : Nat),
        isCacheValid st now = true → st.cachedPlatform ≠ none)
    ∧ (∀ (st : DetectorState) (page : Page) (now : Nat),
        (detectPlatform st page now).returned = none →
        ∀ (page₂ : Page) (now₂ : Nat),
          (detectPlatform (detectPlatform st page now).state page₂ now₂).usedCache
            = false) := by
  have valid_nonnull : ∀ (st : DetectorState) (now : Nat),
      isCacheValid st now = true → st.cachedPlatform ≠ none := by
    intro st now h
    unfold isCacheValid at h
    cases hcp : st.cachedPlatform with
    | none => rw [hcp] at h; cases hts : st.cacheTimestamp <;> rw [hts] at h <;> cases h
    | some p => intro hc; cases hc
  refine ⟨valid_nonnull, ?_⟩
  intro st page now hres page₂ now₂
  by_cases hv : isCacheValid st now = true
  · exfalso
    have h1 : (detectPlatform st page now).returned = st.cachedPlatform := by
      unfold detectPlatform
      rw [if_pos hv]
    exact valid_nonnull st now hv (h1 ▸ hres)
  · have h1 : (detectPlatform st page now).returned
        = combineDetectionStrategies (detectByURL page.url) (detectByDOM page.doc)
            (detectByAPI page.api) getUserOverride := by
      unfold detectPlatform
      rw [if_neg hv]
    rw [h1] at hres
    have h2 : (detectPlatform st page now).state
        = { cachedPlatform := none, cacheTimestamp := some now } := by
      unfold detectPlatform cacheResult
      rw [if_neg hv]
      simp [hres]
    rw [h2]
    simp [detectPlatform, isCacheValid]

/-- C4 counterexample: on a DOM with one customer item, one agent item and one
internal-note item in document order, `extractThread` maps the note to role
`system`, so the roles are not `user, assistant, user` as claimed. -/
theorem freescout_note_role_counterexample :
    (freescoutExtractThread
        [⟨["thread-item", "thread-type-customer"], some "Hi, my site is broken", some "Alice"⟩,
         ⟨["thread-item", "thread-type-message"], some "Can you share a URL?", some "Bob"⟩,
         ⟨["thread-item", "thread-type-note"], some "Customer is on the legacy plan", some "Bob"⟩]
        none).map Message.role
      ≠ ["user", "assistant", "user"] := by
  decide

/-- C4 amended: for every DOM with exactly the three classified thread items —
customer, agent, internal note, in document order, each with content — the
extraction returns three messages in document order with roles
`user, assistant, system` (the note maps to the `system` role); and
`injectReply("Hello **world**")` on a contentEditable reply box sets the
editor's HTML to `Hello <strong>world</strong>` (which contains
`<strong>world</strong>`) and dispatches an `input` event. -/
theorem freescout_extract_roles_and_inject (t₁ t₂ t₃ p₁ p₂ p₃ : String) (ed : Editor)
    (hed : ed.contentEditable = true) :
    (freescoutExtractThread
        [⟨["thread-item", "thread-type-customer"], some t₁, some p₁⟩,
         ⟨["thread-item", "thread-type-message"], some t₂, some p₂⟩,
         ⟨["thread-item", "thread-type-note"], some t₃, some p₃⟩] none).map Message.role
      = ["user", "assistant", "system"]
    ∧ baseInjectReply (some ed) "Hello **world**"
      = (some { ed with innerHTML := "Hello <strong>world</strong>" },
         triggerInputEventsList)
    ∧ strIncludes "Hello <strong>world</strong>" "<strong>world</strong>" = true
    ∧ "input" ∈ triggerInputEventsList := by
  refine ⟨rfl, ?_, by decide, by decide⟩
  have hfmt : formatReplyHTML "Hello **world**" = "Hello <strong>world</strong>" := by
    decide
  simp [baseInjectReply, hed, hfmt]

/-- C4 witness: the amended theorem at concrete thread contents and a concrete
contentEditable editor. -/
theorem freescout_extract_roles_and_inject_witness :
    (freescoutExtractThread
        [⟨["thread-item", "thread-type-customer"], some "q", some "A"⟩,
         ⟨["thread-item", "thread-type-message"], some "r", some "B"⟩,
         ⟨["thread-item", "thread-type-note"], some "n", some "B"⟩] none).map Message.role
      = ["user", "assistant", "system"] :=
  (freescout_extract_roles_and_inject "q" "r" "n" "A" "B" "B"
    { contentEditable := true } rfl).1

/-- C7 counterexample: the sanitized `javascript:` anchor keeps an `href`
attribute (the dangerous-pattern pass deletes the scheme inside the attribute
value, leaving a harmless relative URL), and the markdown-link output differs
from the claimed string because the sanitizer HTML-escapes `/` in the href. -/
theorem sanitize_examples_counterexample :
    strIncludes (sanitize "<a href=\"javascript:alert(1)\">x</a>" defaultOptions)
        "href=" = true
    ∧ sanitize "[Click](https://example.com)" defaultOptions
        ≠ "<a href=\"https://example.com\" target=\"_blank\" rel=\"noopener noreferrer\">Click</a>" := by
  decide

/-- C7 amended: `sanitize('<script>alert(1)</script><p>hi</p>')` contains no
`<script` and retains `<p>hi</p>` exactly as claimed;
`sanitize('<a href="javascript:alert(1)">x</a>')` strips the `javascript:`
scheme in the dangerous-pattern pass, so the anchor keeps an `href` with the
residue `alert(1)` (no `javascript:` URI survives); and the markdown link
produces the claimed anchor except that the href's `/` characters are escaped
as `&#x2F;` by the sanitizer's own escape function. -/
theorem sanitize_examples_amended :
    sanitize "<script>alert(1)</script><p>hi</p>" defaultOptions = "<p>hi</p>"
    ∧ strIncludes (sanitize "<script>alert(1)</script><p>hi</p>" defaultOptions)
        "<script" = false
    ∧ strIncludes (sanitize "<script>alert(1)</script><p>hi</p>" defaultOptions)
        "<p>hi</p>" = true
    ∧ sanitize "<a href=\"javascript:alert(1)\">x</a>" defaultOptions
        = "<a href=\"alert(1)\">x</a>"
    ∧ strIncludes (sanitize "<a href=\"javascript:alert(1)\">x</a>" defaultOptions)
        "javascript:" = false
    ∧ sanitize "[Click](https://example.com)" defaultOptions
        = "<a href=\"https:&#x2F;&#x2F;example.com\" target=\"_blank\" rel=\"noopener noreferrer\">Click</a>" := by
  decide

/-- C8 counterexample: sanitizing `<p>**a* b**</p>` once yields
`<p>*<em>a</em> b**</p>`, and the second pass re-fires the markdown italic
conversion across the emitted tags, so `sanitize` is not idempotent even on an
input drawn from the allowed-tag set. -/
theorem sanitize_not_idempotent_counterexample :
    sanitize "<p>**a* b**</p>" defaultOptions = "<p>*<em>a</em> b**</p>"
    ∧ sanitize (sanitize "<p>**a* b**</p>" defaultOptions) defaultOptions
        = "<p><em><em>a</em> b</em>*</p>"
    ∧ sanitize (sanitize "<p>**a* b**</p>" defaultOptions) defaultOptions
        ≠ sanitize "<p>**a* b**</p>" defaultOptions := by
  decide

/-- C8 amended: `sanitize` is not idempotent in general — the markdown pass
can re-fire on its own output — but on every input all of whose characters are
outside the pipeline-active set (`<`, `>`, `&`, `*`, backtick, `[`, newline,
`=`, `:`, carriage return, U+0000, U+00A0) it is the identity under the
default options, and hence idempotent there.  The last two conjuncts show the
boundary of that set is tight in the model: the parser's input preprocessing
turns a lone carriage return into `<br>`, and the serializer turns a
non-breaking space into `&nbsp;`. -/
theorem sanitize_idempotent_on_inert (s : String) (h : s.data.all inertChar = true) :
    (sanitize s defaultOptions = s
      ∧ sanitize (sanitize s defaultOptions) defaultOptions = sanitize s defaultOptions)
    ∧ sanitize (String.mk ['\r']) defaultOptions = "<br>"
    ∧ sanitize (String.mk [Char.ofNat 160]) defaultOptions = "&nbsp;" := by
  have hid := sanitize_id_of_inert s h
  exact ⟨⟨hid, by rw [hid]; exact hid⟩, by decide, by decide⟩

/-- C8 witness: idempotence at a concrete inert string. -/
theorem sanitize_idempotent_on_inert_witness :
    sanitize (sanitize "hello world" defaultOptions) defaultOptions
      = sanitize "hello world" defaultOptions :=
  (sanitize_idempotent_on_inert "hello world" (by decide)).1.2

/-- C5: on a page whose DOM carries exactly one platform's unique markers (the
DOM strategy answers that platform, the URL and API strategies agree or
abstain, no override exists), `detectPlatform` from an invalid cache returns
that platform after running the strategies, every repeated call within the
5-minute window returns the cached identity without running any strategy and
leaves the cache untouched, and the cached value is invalidated exactly by
expiry of the TTL or by `clearCache`. -/
theorem detect_platform_deterministic_cached (st : DetectorState) (page page₂ : Page)
    (p : Platform) (t t₂ : Nat)
    (hcold : isCacheValid st t = false)
    (hdom : detectByDOM page.doc = some p)
    (hurl : detectByURL page.url = some p ∨ detectByURL page.url = none)
    (hapi : detectByAPI page.api = some p ∨ detectByAPI page.api = none)
    (hfresh : t₂ - t < CACHE_DURATION) :
    (detectPlatform st page t).returned = some p
    ∧ (detectPlatform st page t).usedCache = false
    ∧ detectPlatform (detectPlatform st page t).state page₂ t₂
        = { returned := some p, state := (detectPlatform st page t).state,
            usedCache := true }
    ∧ (∀ t₃, CACHE_DURATION ≤ t₃ - t →
        isCacheValid (detectPlatform st page t).state t₃ = false)
    ∧ isCacheValid (clearCache (detectPlatform st page t).state) t₂ = false := by
  have hcomb : combineDetectionStrategies (detectByURL page.url) (detectByDOM page.doc)
      (detectByAPI page.api) getUserOverride = some p := by
    cases p <;> rcases hurl with hu | hu <;> rcases hapi with ha | ha <;>
      rw [hu, ha, hdom] <;> decide
  have h1 : detectPlatform st page t =
      { returned := some p,
        state := { cachedPlatform := some p, cacheTimestamp := some t },
        usedCache := false } := by
    unfold detectPlatform cacheResult
    rw [if_neg (by simp [hcold])]
    simp [hcomb]
  have hvalid : isCacheValid
      { cachedPlatform := some p, cacheTimestamp := some t } t₂ = true := by
    unfold isCacheValid
    simpa using hfresh
  refine ⟨by rw [h1], by rw [h1], ?_, ?_, ?_⟩
  · rw [h1]
    unfold detectPlatform
    rw [if_pos hvalid]
  · intro t₃ h3
    rw [h1]
    unfold isCacheValid
    simpa using h3
  · rw [h1]
    rfl

/-- C5 witness: the cache behaviour on a concrete Help Scout page. -/
theorem detect_platform_deterministic_cached_witness :
    (detectPlatform { }
        { url := "https://secure.helpscout.net/conversations/1",
          doc := ⟨["#AccountDropdown"]⟩, api := { } } 0).returned
      = some Platform.helpscout :=
  (detect_platform_deterministic_cached { }
      { url := "https://secure.helpscout.net/conversations/1",
        doc := ⟨["#AccountDropdown"]⟩, api := { } }
      { url := "https://secure.helpscout.net/conversations/1",
        doc := ⟨["#AccountDropdown"]⟩, api := { } }
      Platform.helpscout 0 1000 (by decide) (by decide) (Or.inl (by decide))
      (Or.inr (by decide)) (by decide)).1

/-- C10 witness: after an unknown detection on a page matching nothing, the
next call does not use the cache. -/
theorem cache_never_serves_null_witness :
    (detectPlatform
        (detectPlatform { } { url := "", doc := ⟨[]⟩, api := { } } 5).state
        { url := "", doc := ⟨[]⟩, api := { } } 6).usedCache = false :=
  cache_never_serves_null.2 { } { url := "", doc := ⟨[]⟩, api := { } } 5 (by decide)
    { url := "", doc := ⟨[]⟩, api := { } } 6

end FreescoutGPT
